import Mathlib

/-!
Verification of the MPVShadow `shadow_analyzer` crate (src/main.rs, src/wav.rs,
src/pitch.rs) against its natural-language specification.

Shallow embedding conventions:
* Rust `f64`/`f32` values are embedded as `ℚ`; every arithmetic operation the
  embedded code performs (`+`, `-`, `*`, `/`, comparisons, `abs`, `floor`,
  `ceil`, `clamp`) is exact on the inputs the theorems use.
* Byte buffers are `List ℕ` (each entry `< 256` at the call sites used).
* Fallible Rust code returning `io::Result`/`anyhow::Result` is embedded with
  `Option`/`Except String`.
* Loops whose Rust form is `while`/`loop` are embedded either structurally or
  with an explicit fuel argument chosen large enough that it can never be
  exhausted before the loop's own exit condition fires (the bound is noted at
  each definition), so the fuel variant is extensionally the Rust loop.
-/

/-! ## Control channel client (src/main.rs, `read_reply_with_id`, lines 51-66)

An inbound mpv IPC line is either unparseable (`none`, skipped by
`serde_json::from_str`) or a parsed message.  Of a parsed JSON object the
client inspects `request_id` (via `as_u64`); replies carry one, events do not.
The remaining fields model the payload of the messages the program reads. -/

structure MpvMsg where
  request_id : Option Nat
  event : Option String
  name : Option String
  dataStr : Option String
  dataNum : Option ℚ
  args : List String
deriving DecidableEq

/-- Embeds `read_reply_with_id` (main.rs:51-66): read lines until a parseable
one carries the matching `request_id`; unparseable lines and parseable lines
with a different (or no) `request_id` are skipped and the loop continues.  The
input list is the sequence of lines the reader will yield; `none` at the list
end stands for EOF (`read_line` returning 0 → `UnexpectedEof` error, embedded
as `Option.none`).  On success the result is the matching message together
with the lines left unread in the stream. -/
def read_reply_with_id : List (Option MpvMsg) → Nat → Option (MpvMsg × List (Option MpvMsg))
  | [], _ => none
  | line :: rest, rid =>
    match line with
    | some v => if v.request_id = some rid then some (v, rest) else read_reply_with_id rest rid
    | none => read_reply_with_id rest rid

/-- A concrete interleaved event line: a `property-change` notification (no
`request_id`), as mpv emits between a `get_property` request and its reply. -/
def interleavedEvent : MpvMsg :=
  { request_id := none, event := some "property-change", name := some "sub-text",
    dataStr := some "hello", dataNum := none, args := [] }

/-- A concrete reply line for request id 4 (`duration`). -/
def durationReply : MpvMsg :=
  { request_id := some 4, event := none, name := none,
    dataStr := none, dataNum := some 100, args := [] }

/-! ## PCM stream analyzer (src/main.rs, `run_analyzer`, lines 563-629)

The reader thread performs one blocking `read`; its channel message is `Ok`
with the measured triple (first-byte latency, RMS, peak) when the read
returned more than zero bytes, and `Err` otherwise (main.rs:571-595).  The
measured triple itself is carried opaquely: its numeric computation (f32
square root) happens only on the `n > 0` path and is passed through
unchanged, and no claim constrains its value. -/

inductive PcmReadResult where
  | ok (n : Nat)
  | readErr (e : String)
deriving DecidableEq

/-- Embeds the channel message sent by the reader thread (main.rs:571-595):
`Ok n` with `n > 0` sends the measured `(latency, rms, peak)`; `Ok 0` sends
`Err "ffmpeg pipe returned 0 bytes"`; a read error sends `Err` with the
formatted message. -/
def pcmThreadMessage (readRes : PcmReadResult) (stats : Nat × ℚ × ℚ) :
    Except String (Nat × ℚ × ℚ) :=
  match readRes with
  | .ok n => if 0 < n then .ok stats else .error "ffmpeg pipe returned 0 bytes"
  | .readErr e => .error ("ffmpeg pipe read error: " ++ e)

/-- What `rx.recv_timeout(200ms)` yields in the parent (main.rs:598). -/
inductive PcmRecvOutcome where
  | received (msg : Except String (Nat × ℚ × ℚ))
  | timedOut

/-- Effect of one analysis sub-step on the spawned ffmpeg child and on the
snapshot publish. -/
structure ChildEffect where
  killed : Bool
  waited : Bool
  published : Option (Nat × ℚ × ℚ)
deriving DecidableEq

/-- Embeds the `match rx.recv_timeout(...)` arms (main.rs:598-629): a received
`Ok` triple publishes and leaves the child alone; a received `Err` logs,
kills and reaps the child; a timeout likewise kills and reaps. -/
def pcmRecvEffect : PcmRecvOutcome → ChildEffect
  | .received (.ok t) => { killed := false, waited := false, published := some t }
  | .received (.error _) => { killed := true, waited := true, published := none }
  | .timedOut => { killed := true, waited := true, published := none }

/-! ## UI mailbox (src/main.rs, lines 320-321, 616-617, 726-749)

The shared slot is `Arc<Mutex<Option<UiPayload>>>`; the wake primitive is
`EventLoopProxy::send_event`.  `wakes` counts the signals sent so far. -/

structure MailboxState (α : Type) where
  slot : Option α
  wakes : Nat

/-- Embeds one publish site (`*guard = Some(payload); proxy.send_event(())`,
main.rs:616-617 and 320-321): overwrite the slot, send one wake signal. -/
def publishSnapshot {α : Type} (st : MailboxState α) (p : α) : MailboxState α :=
  { slot := some p, wakes := st.wakes + 1 }

/-- Embeds the consumer's wake handler (main.rs:727-749): `guard.take()`,
delivering the taken value when present. -/
def consumeSnapshot {α : Type} (st : MailboxState α) : MailboxState α × Option α :=
  ({ st with slot := none }, st.slot)

/-! ## Cut window (src/main.rs, `run_analyzer`, lines 437-441) -/

/-- Embeds the padding-and-clamping block run on trigger (main.rs:437-441):
`pad = 0.10`; `if s > pad { s -= pad } else { s = 0.0 }`; `e += pad;
if dur > 0.0 && e > dur { e = dur }`. -/
def computeCutWindow (s e dur : ℚ) : ℚ × ℚ :=
  let pad : ℚ := 1/10
  let s2 := if pad < s then s - pad else 0
  let e2 := e + pad
  let e3 := if 0 < dur ∧ dur < e2 then dur else e2
  (s2, e3)

/-! ## AnalysisSnapshot payloads (src/main.rs, `UiPayload`, lines 23-38)

One trigger cycle can publish the snapshot twice: once from the analysis
sub-step (main.rs:602-615) and once from the mic recorder's completion thread
(main.rs:306-319).  `CycleCtx` collects the values in scope at both
construction sites during one cycle. -/

structure UiPayload where
  text : Option String
  s : ℚ
  e : ℚ
  dur : ℚ
  ff_index : Option Nat
  out_path : String
  latest_path : String
  latest_mic_path : Option String
  mic_out_path : Option String
  latency_ms : Nat
  rms : ℚ
  peak : ℚ
deriving DecidableEq

structure CycleCtx where
  text : Option String
  s : ℚ
  e : ℚ
  dur : ℚ
  ff_index : Option Nat
  out_path : String
  latest_path : String
  latest_mic_path : String
  mic_out_path : String
  mic_device_sel : Option String

/-- Embeds the payload built in `spawn_mic_recorder`'s completion thread
(main.rs:306-319) from the field snapshot passed at spawn time; the
`latency_ms`/`rms`/`peak` parameters are whatever the caller passed. -/
def micRecorderPayload (latest_path unique_path : String) (text : Option String)
    (s e dur : ℚ) (ff_index : Option Nat) (out_path latest_src_path : String)
    (latency_ms : Nat) (rms peak : ℚ) : UiPayload :=
  { text := text, s := s, e := e, dur := dur, ff_index := ff_index,
    out_path := out_path, latest_path := latest_src_path,
    latest_mic_path := some latest_path, mic_out_path := some unique_path,
    latency_ms := latency_ms, rms := rms, peak := peak }

/-- Embeds the `spawn_mic_recorder` call site (main.rs:522-540): the snapshot
fields are captured before the PCM analysis runs, so `latency_ms`, `rms` and
`peak` are passed as the constants `0`, `0.0`, `0.0`. -/
def micCompletionPayload (c : CycleCtx) : UiPayload :=
  micRecorderPayload c.latest_mic_path c.mic_out_path c.text c.s c.e c.dur
    c.ff_index c.out_path c.latest_path 0 0 0

/-- Embeds the analysis-completion payload (main.rs:602-615): carries the
measured latency/RMS/peak; the mic paths are included only when
`mic_device_sel` (the explicitly selected device) is `Some`, regardless of
whether a fallback device was actually recording. -/
def analysisCompletionPayload (c : CycleCtx) (lat : Nat) (rms peak : ℚ) : UiPayload :=
  { text := c.text, s := c.s, e := c.e, dur := c.dur, ff_index := c.ff_index,
    out_path := c.out_path, latest_path := c.latest_path,
    latest_mic_path := c.mic_device_sel.map (fun _ => c.latest_mic_path),
    mic_out_path := c.mic_device_sel.map (fun _ => c.mic_out_path),
    latency_ms := lat, rms := rms, peak := peak }

/-- A concrete trigger cycle used to refute C4. -/
def c4Cycle : CycleCtx :=
  { text := some "hello", s := 99/10, e := 121/10, dur := 100, ff_index := some 1,
    out_path := "shadow_out/clip_9900_12100.wav",
    latest_path := "shadow_out/latest.wav",
    latest_mic_path := "shadow_out/latest_mic.wav",
    mic_out_path := "shadow_out/clip_9900_12100_mic.wav",
    mic_device_sel := some "audio=Microphone" }

/-! ## Retention cleanup (src/main.rs, `cleanup_old_clips`, lines 127-151)

A directory entry carries the data the cleanup thread extracts from it:
its full path, its file name, its extension (`Path::extension`, `none` when
absent) and its modification time (`none` when `metadata()`/`modified()`
fails).  Times are modelled as `ℕ` ticks of `SystemTime`. -/

structure DirEntry where
  path : String
  fileName : String
  ext : Option String
  modified : Option Nat
deriving DecidableEq

/-- ASCII lower-casing of one character, as `eq_ignore_ascii_case` uses. -/
def asciiLowerChar (c : Char) : Char :=
  if 65 ≤ c.toNat ∧ c.toNat ≤ 90 then Char.ofNat (c.toNat + 32) else c

def asciiLower (s : String) : String := String.mk (s.data.map asciiLowerChar)

/-- An entry survives the `continue` guards of the cleanup loop
(main.rs:133-141) — i.e. is counted and may be removed — exactly when its
extension is `wav`, its path is not in the exclude list, its file name is not
`latest.wav` up to ASCII case, and its modification time is readable. -/
def isCleanupEligible (exclude : List String) (ent : DirEntry) : Bool :=
  ent.ext == some "wav" && !(exclude.contains ent.path) &&
    !(asciiLower ent.fileName == "latest.wav") && ent.modified.isSome

def entryMTime (ent : DirEntry) : Nat := ent.modified.getD 0

/-- The comparator of `entries.sort_by(|a, b| b.1.cmp(&a.1))`: newest first. -/
def cleanupLe (a b : DirEntry) : Bool := decide (entryMTime b ≤ entryMTime a)

/-- Embeds `cleanup_old_clips` (main.rs:127-151) as a function from the
directory state to the directory state after the spawned cleanup thread has
run: collect the eligible entries, sort them newest first (Rust `sort_by` is
a stable sort, as is `List.mergeSort`), and when more than `keep` remain,
remove every file past the first `keep`. -/
def cleanup_old_clips (dirEntries : List DirEntry) (keep : Nat)
    (exclude : List String) : List DirEntry :=
  let entries := dirEntries.filter (isCleanupEligible exclude)
  let sorted := entries.mergeSort cleanupLe
  let removed := if keep < sorted.length then (sorted.drop keep).map DirEntry.path else []
  dirEntries.filter (fun ent => !(removed.contains ent.path))

/-- Concrete directory state for the C3 witness: two eligible clips, a
`latest.wav`, and an excluded just-produced clip. -/
def c3Dir : List DirEntry :=
  [ { path := "shadow_out/a_1_2.wav", fileName := "a_1_2.wav",
      ext := some "wav", modified := some 10 },
    { path := "shadow_out/a_3_4.wav", fileName := "a_3_4.wav",
      ext := some "wav", modified := some 20 },
    { path := "shadow_out/latest.wav", fileName := "latest.wav",
      ext := some "wav", modified := some 30 },
    { path := "shadow_out/a_5_6.wav", fileName := "a_5_6.wav",
      ext := some "wav", modified := some 40 } ]

def c3Exclude : List String := ["shadow_out/a_5_6.wav"]

/-! ## WAV decoder (src/wav.rs)

Byte buffers are lists of naturals (each `< 256` where the buffer models file
contents); multi-byte fields are little-endian. -/

def le16 (buf : List Nat) (off : Nat) : Nat :=
  buf.getD off 0 + 256 * buf.getD (off + 1) 0

def le32 (buf : List Nat) (off : Nat) : Nat :=
  buf.getD off 0 + 256 * buf.getD (off + 1) 0 + 65536 * buf.getD (off + 2) 0 +
    16777216 * buf.getD (off + 3) 0

structure WavInfo where
  sample_rate : Nat
  channels : Nat
  bits_per_sample : Nat
deriving DecidableEq

/-- Four-byte tag comparison, as `&buf[p..p+4] == b"..."` (all uses are
in-bounds, guarded by `p + 8 <= buf.len()`). -/
def sliceEq (buf : List Nat) (off : Nat) (pat : List Nat) : Bool :=
  ((buf.drop off).take pat.length) == pat

def riffTag : List Nat := [82, 73, 70, 70]
def waveTag : List Nat := [87, 65, 86, 69]
def fmtTag : List Nat := [102, 109, 116, 32]
def dataTag : List Nat := [100, 97, 116, 97]

/-- Embeds the chunk-walking loop of `parse_header_minimal` (wav.rs:71-93).
The loop advances `p` by at least 8 per iteration and runs only while
`p + 8 <= buf.len()`, so it iterates at most `buf.length / 8` times; it is
called with fuel `buf.length + 1`, which therefore never runs out, and the
fuel-exhaustion arm mirrors the ordinary loop exit. -/
def parseChunks (buf : List Nat) :
    Nat → Nat → Option WavInfo → Option Nat → Option Nat →
    Except String (Option WavInfo × Option Nat × Option Nat)
  | 0, _, info, doff, dlen => .ok (info, doff, dlen)
  | fuel + 1, p, info, doff, dlen =>
    if p + 8 ≤ buf.length then
      let chunk_size := le32 buf (p + 4)
      let payload_off := p + 8
      if buf.length < payload_off + chunk_size then .error "chunk OOB"
      else if sliceEq buf p fmtTag then
        if chunk_size < 16 then .error "fmt too small"
        else
          let audio_format := le16 buf payload_off
          let channels := le16 buf (payload_off + 2)
          let sample_rate := le32 buf (payload_off + 4)
          let bits_per_sample := le16 buf (payload_off + 14)
          if audio_format ≠ 1 then .error "unsupported format (PCM only)"
          else parseChunks buf fuel (payload_off + chunk_size)
            (some { sample_rate := sample_rate, channels := channels,
                    bits_per_sample := bits_per_sample }) doff dlen
      else if sliceEq buf p dataTag then
        parseChunks buf fuel (payload_off + chunk_size) info (some payload_off)
          (some chunk_size)
      else parseChunks buf fuel (payload_off + chunk_size) info doff dlen
    else .ok (info, doff, dlen)

/-- Embeds `parse_header_minimal` (wav.rs:64-98). -/
def parse_header_minimal (buf : List Nat) : Except String (WavInfo × Nat × Nat) :=
  if buf.length < 44 then .error "wav too small"
  else if !(sliceEq buf 0 riffTag) || !(sliceEq buf 8 waveTag) then .error "not RIFF/WAVE"
  else
    match parseChunks buf (buf.length + 1) 12 none none none with
    | .error e => .error e
    | .ok (info, doff, dlen) =>
      match info with
      | none => .error "missing fmt chunk"
      | some i =>
        match doff with
        | none => .error "missing data chunk"
        | some o =>
          match dlen with
          | none => .error "missing data length"
          | some l => .ok (i, o, l)

/-- Sign-extending 16-bit sample decode (wav.rs:38-40): the low byte is
zero-extended, the high byte sign-extended through `i8`. -/
def toI16 (lo hi : Nat) : Int :=
  (if 128 ≤ hi then (hi : Int) - 256 else (hi : Int)) * 256 + lo

/-- The float sample at byte offset `i` (wav.rs:38-41): `i16 / 32768`. -/
def sampleFromBytes (bytes : List Nat) (i : Nat) : ℚ :=
  (toI16 (bytes.getD i 0) (bytes.getD (i + 1) 0) : ℚ) / 32768

/-- The mono value of frame `f` (wav.rs:35-45): average of the frame's `ch`
interleaved channel samples; the running byte index `i` of the source equals
`2 * (f * ch + c)` at frame `f`, channel `c`. -/
def monoFrameAt (bytes : List Nat) (ch f : Nat) : ℚ :=
  (((List.range ch).map (fun c => sampleFromBytes bytes (2 * (f * ch + c)))).sum) / ch

/-- Embeds the 2-tap decimation loop (wav.rs:51-57): pairwise averages while
`j + 1 < len`, dropping a trailing odd sample. -/
def decimate2 : List ℚ → List ℚ
  | a :: b :: rest => (1/2) * (a + b) :: decimate2 rest
  | _ => []

/-- Embeds the body of `read_wav_mono_16bit` after header parsing
(wav.rs:21-61). -/
def decodeSamples (buf : List Nat) (target_sample_rate : Option Nat)
    (info : WavInfo) (data_off data_len : Nat) : Except String (List ℚ × Nat) :=
  if info.bits_per_sample ≠ 16 then .error "unsupported bits_per_sample"
  else if buf.length < data_off + data_len then .error "wav data chunk out of bounds"
  else
    let bytes := (buf.drop data_off).take data_len
    let total_samples := bytes.length / 2
    if total_samples = 0 then .ok ([], target_sample_rate.getD info.sample_rate)
    else
      let ch := max info.channels 1
      let frames := total_samples / ch
      let mono := (List.range frames).map (monoFrameAt bytes ch)
      let out_sr := target_sample_rate.getD info.sample_rate
      if info.sample_rate = 48000 ∧ out_sr = 24000 then .ok (decimate2 mono, out_sr)
      else .ok (mono, info.sample_rate)

/-- Embeds `read_wav_mono_16bit` (wav.rs:15-62) on the already-read file
bytes. -/
def read_wav_mono_16bit (buf : List Nat) (target_sample_rate : Option Nat) :
    Except String (List ℚ × Nat) :=
  match parse_header_minimal buf with
  | .error e => .error e
  | .ok (info, data_off, data_len) => decodeSamples buf target_sample_rate info data_off data_len

/-- A concrete mono 16-bit 48 kHz WAV with two frames of data
(bytes `[0, 1, 2, 3]`, i.e. samples 256 and 770). -/
def wav48kMono : List Nat :=
  [82, 73, 70, 70,  40, 0, 0, 0,  87, 65, 86, 69,
   102, 109, 116, 32,  16, 0, 0, 0,  1, 0,  1, 0,
   128, 187, 0, 0,  0, 119, 1, 0,  2, 0,  16, 0,
   100, 97, 116, 97,  4, 0, 0, 0,  0, 1, 2, 3]

/-- A concrete mono 16-bit 44.1 kHz WAV whose data chunk is present but
empty. -/
def wav44kEmptyData : List Nat :=
  [82, 73, 70, 70,  36, 0, 0, 0,  87, 65, 86, 69,
   102, 109, 116, 32,  16, 0, 0, 0,  1, 0,  1, 0,
   68, 172, 0, 0,  0, 0, 0, 0,  2, 0,  16, 0,
   100, 97, 116, 97,  0, 0, 0, 0]

/-! ## Pitch estimator (src/pitch.rs)

All f32 arithmetic is embedded over `ℚ`.  The one `usize` subtraction the
Rust code does not guard — `let limit = frame_size - tau` (pitch.rs:64),
which for `tau > frame_size` overflows in debug builds and, via the wrapped
`limit`, drives `frame[j + tau]` out of bounds in release builds — is
embedded as an `Option`: `none` is that panic, and it propagates through the
frame loop to the whole estimate. -/

structure F0Config where
  sample_rate_hz : ℚ
  frame_size : Nat
  hop_size : Nat
  fmin_hz : ℚ
  fmax_hz : ℚ
  nsdf_threshold : ℚ

structure F0Result where
  f0_hz : List ℚ
  voiced_flags : List Bool
  median_hz : Option ℚ
  voiced_ratio : ℚ
deriving DecidableEq

/-- Embeds the NSDF computation for one lag (pitch.rs:63-79).  `none` models
the panic at `frame_size - tau` when `tau > frame_size` (debug: subtraction
overflow; release: the wrapped `limit` passes the `limit < 2` test and
`frame[j + tau]` indexes out of bounds at `j = 0`).  For `tau ≤ frame_size`
the value is `0` when the overlap is shorter than 2 samples or the
denominator is not positive, else `2·Σ x_j·x_{j+τ} / Σ (x_j² + x_{j+τ}²)`. -/
def nsdfAt (frame : List ℚ) (frame_size tau : Nat) : Option ℚ :=
  if frame_size < tau then none
  else
    let limit := frame_size - tau
    if limit < 2 then some 0
    else
      let num := ((List.range limit).map
        (fun j => frame.getD j 0 * frame.getD (j + tau) 0)).sum
      let den := ((List.range limit).map
        (fun j => frame.getD j 0 * frame.getD j 0 +
          frame.getD (j + tau) 0 * frame.getD (j + tau) 0)).sum
      if 0 < den then some (2 * num / den) else some 0

/-- The lag table consulted once the fill loop has completed. -/
def nsdfVal (frame : List ℚ) (frame_size tau : Nat) : ℚ :=
  (nsdfAt frame frame_size tau).getD 0

/-- Embeds the NSDF fill loop over `tau_min..=tau_max` (pitch.rs:63-79): the
ascending loop reaches a panicking lag exactly when the range is non-empty
and its largest lag exceeds `frame_size`.  On success, every lag the rest of
the frame consults lies in `[tau_min, tau_max]`, where `nsdfAt` is `some`,
so the table `nsdfVal` never falls back to its `getD` default there. -/
def fillNsdf (frame : List ℚ) (frame_size tau_min tau_max : Nat) :
    Option (Nat → ℚ) :=
  if tau_min ≤ tau_max ∧ frame_size < tau_max then none
  else some (nsdfVal frame frame_size)

/-- Embeds the peak-picking loop (pitch.rs:84-94): scan the interior lags in
ascending order, keeping the highest strict-above-predecessor,
at-least-successor local maximum; the accumulator starts at `(0, -1)`. -/
def bestPeakFold (nv : Nat → ℚ) : List Nat → Nat × ℚ → Nat × ℚ
  | [], best => best
  | tau :: rest, best =>
    let prev := nv (tau - 1)
    let cur := nv tau
    let next := nv (tau + 1)
    if prev < cur ∧ next ≤ cur ∧ best.2 < cur then bestPeakFold nv rest (tau, cur)
    else bestPeakFold nv rest best

/-- Embeds one frame (pitch.rs:58-114): fill the NSDF table (propagating its
panic), pick the best interior peak, decide voicing, and return the pair
pushed onto `(f0_series, voiced_flags)`: the refined frequency with flag
`true` when a peak in range reaches the threshold and yields a positive
frequency, else `(0, false)`.  Rust's `(tau_min+1)..tau_max` range is the
`tau_max - (tau_min+1)` lags starting at `tau_min + 1`. -/
def processFrame (frame : List ℚ) (frame_size tau_min tau_max : Nat)
    (sr thresh : ℚ) : Option (ℚ × Bool) :=
  match fillNsdf frame frame_size tau_min tau_max with
  | none => none
  | some nv =>
    let best := bestPeakFold nv (List.range' (tau_min + 1) (tau_max - (tau_min + 1))) (0, -1)
    if tau_min ≤ best.1 ∧ best.1 ≤ tau_max ∧ thresh ≤ best.2 then
      let l := nv (best.1 - 1)
      let c := nv best.1
      let r := nv (best.1 + 1)
      let denom := l - 2 * c + r
      let delta := if 1 / 1000000000000 < |denom| then (1/2) * (l - r) / denom else 0
      let tau_refined := min (max ((best.1 : ℚ) + delta) ((tau_min : ℚ))) ((tau_max : ℚ))
      let freq := sr / max tau_refined 1
      if 0 < freq then some (freq, true) else some (0, false)
    else some (0, false)

/-- Embeds the sliding-frame loop (pitch.rs:56-117), propagating a frame's
panic.  Each iteration needs `start + frame_size <= samples.len()` and
advances `start` by `hop >= 1`, so it runs at most `samples.length + 1`
times; called with that much fuel the exhaustion arm is unreachable and the
function is the Rust loop. -/
def frameFold (samples : List ℚ) (frame_size hop tau_min tau_max : Nat)
    (sr thresh : ℚ) : Nat → Nat → Option (List (ℚ × Bool))
  | 0, _ => some []
  | fuel + 1, start =>
    if start + frame_size ≤ samples.length then
      match processFrame ((samples.drop start).take frame_size) frame_size tau_min
          tau_max sr thresh with
      | none => none
      | some p =>
        match frameFold samples frame_size hop tau_min tau_max sr thresh fuel
            (start + hop) with
        | none => none
        | some rest => some (p :: rest)
    else some []

/-- The per-frame `(f0, voiced)` pairs produced by `estimate_f0_mpm`'s main
loop (pitch.rs:44-117), with the lag bounds, clamped threshold and minimum
hop of pitch.rs:44-50; `none` when some processed frame panics. -/
def f0Pairs (samples : List ℚ) (cfg : F0Config) : Option (List (ℚ × Bool)) :=
  let sr := max cfg.sample_rate_hz 1
  let tau_min := max (Int.toNat ⌊sr / max cfg.fmax_hz 1⌋) 2
  let tau_max := max (Int.toNat ⌈sr / max cfg.fmin_hz 1⌉) (tau_min + 1)
  let thresh := min (max cfg.nsdf_threshold 0) 1
  let hop := max cfg.hop_size 1
  frameFold samples cfg.frame_size hop tau_min tau_max sr thresh (samples.length + 1) 0

/-- Embeds the median block (pitch.rs:119-131): filter the strictly positive
series values, sort ascending (`sort_by` on a partial order that is total on
the values present; stable like `List.mergeSort`), take the middle value or
the average of the two middle ones. -/
def medianFromSeries (f0_series : List ℚ) : Option ℚ :=
  let voiced_vals := (f0_series.filter (fun x => decide (0 < x))).mergeSort
    (fun a b => decide (a ≤ b))
  if voiced_vals.isEmpty then none
  else
    let mid := voiced_vals.length / 2
    if voiced_vals.length % 2 = 1 then some (voiced_vals.getD mid 0)
    else some ((1/2) * (voiced_vals.getD (mid - 1) 0 + voiced_vals.getD mid 0))

/-- Embeds the voiced-ratio block (pitch.rs:133-136). -/
def voicedRatio (flags : List Bool) : ℚ :=
  if !flags.isEmpty then ((flags.filter (fun b => b)).length : ℚ) / ((flags.length : ℚ))
  else 0

/-- Embeds `estimate_f0_mpm` (pitch.rs:40-139); `none` is the run that
panics in the NSDF fill loop and returns nothing. -/
def estimate_f0_mpm (samples : List ℚ) (cfg : F0Config) : Option F0Result :=
  if samples = [] ∨ cfg.frame_size < 3 then
    some { f0_hz := [], voiced_flags := [], median_hz := none, voiced_ratio := 0 }
  else
    match f0Pairs samples cfg with
    | none => none
    | some results =>
      let f0_series := results.map Prod.fst
      let flags := results.map Prod.snd
      some ({ f0_hz := f0_series,
              voiced_flags := flags,
              median_hz := medianFromSeries f0_series,
              voiced_ratio := voicedRatio flags } : F0Result)

/-- States the claim's median rule (spec §4.5 output line) over the result
fields: the f0 values of the voiced frames only — selected by the voiced
flags — sorted; the middle value for an odd voiced count, the average of the
two middle values for an even count, `none` when no frame is voiced. -/
def medianOverVoiced (f0s : List ℚ) (flags : List Bool) : Option ℚ :=
  let voiced := ((f0s.zip flags).filter (fun p => p.2)).map Prod.fst
  let sorted := voiced.mergeSort (fun a b => decide (a ≤ b))
  if sorted.isEmpty then none
  else if sorted.length % 2 = 1 then some (sorted.getD (sorted.length / 2) 0)
  else some ((sorted.getD (sorted.length / 2 - 1) 0 + sorted.getD (sorted.length / 2) 0) / 2)

/-- The tiny config used by the C8/C9 witnesses: lag bounds 2..3 stay within
the frame size 3, so no frame panics. -/
def tinyF0Config : F0Config :=
  { sample_rate_hz := 10, frame_size := 3, hop_size := 1,
    fmin_hz := 5, fmax_hz := 5, nsdf_threshold := 1/2 }

/-! ### Theorems for C1 -/

/-- Claim C1, counterexample.  The claim asserts that every non-matching line
read while a `get_property` reply is pending is "dispatched elsewhere, never
lost".  In `read_reply_with_id` a skipped line appears in no output of the
function: it is neither returned nor left in the stream handed back, and the
surrounding loop in `run_analyzer` never sees it.  The statement below is the
claim's "never lost" part — every parseable non-matching line of the consumed
stream is still available in the remaining stream — refuted at the concrete
two-line stream `[interleavedEvent, durationReply]` with pending id 4. -/
theorem C1_counterexample :
    ¬ (∀ (lines : List (Option MpvMsg)) (rid : Nat) (m : MpvMsg)
        (rest : List (Option MpvMsg)),
        read_reply_with_id lines rid = some (m, rest) →
        ∀ x : MpvMsg, some x ∈ lines → x.request_id ≠ some rid → some x ∈ rest) := by
  intro h
  have hrun : read_reply_with_id [some interleavedEvent, some durationReply] 4 =
      some (durationReply, []) := by decide
  have hmem : some interleavedEvent ∈ [some interleavedEvent, some durationReply] := by
    simp
  have hne : interleavedEvent.request_id ≠ some 4 := by decide
  have := h _ 4 durationReply [] hrun interleavedEvent hmem hne
  simp at this

/-- Claim C1, amended: `read_reply_with_id` returns the first parseable line
whose `request_id` matches (so an interleaved event line, carrying no
`request_id`, is never returned), and every line read before it — parseable
non-matching lines included — is consumed and silently discarded: the stream
handed back is exactly the suffix after the matching reply. -/
theorem read_reply_with_id_first_match
    (lines : List (Option MpvMsg)) (rid : Nat) (m : MpvMsg)
    (rest : List (Option MpvMsg))
    (h : read_reply_with_id lines rid = some (m, rest)) :
    m.request_id = some rid ∧
    ∃ pre, lines = pre ++ some m :: rest ∧
      ∀ x : MpvMsg, some x ∈ pre → x.request_id ≠ some rid := by
  induction lines generalizing m rest with
  | nil => simp [read_reply_with_id] at h
  | cons line tail ih =>
    cases line with
    | none =>
      simp only [read_reply_with_id] at h
      obtain ⟨hid, pre, htail, hpre⟩ := ih m rest h
      refine ⟨hid, none :: pre, by simp [htail], ?_⟩
      intro x hx
      simp only [List.mem_cons] at hx
      rcases hx with hx | hx
      · exact absurd hx (by simp)
      · exact hpre x hx
    | some v =>
      simp only [read_reply_with_id] at h
      by_cases hv : v.request_id = some rid
      · rw [if_pos hv] at h
        obtain ⟨hm, hrest⟩ : v = m ∧ tail = rest := by
          simpa [Prod.ext_iff] using h
        subst hm; subst hrest
        exact ⟨hv, [], by simp, by simp⟩
      · rw [if_neg hv] at h
        obtain ⟨hid, pre, htail, hpre⟩ := ih m rest h
        refine ⟨hid, some v :: pre, by simp [htail], ?_⟩
        intro x hx
        simp only [List.mem_cons, Option.some.injEq] at hx
        rcases hx with hx | hx
        · subst hx; exact hv
        · exact hpre x hx

/-- Witness for the amended C1 theorem at the concrete stream
`[interleavedEvent, durationReply]` with pending request id 4. -/
theorem read_reply_with_id_first_match_witness :
    durationReply.request_id = some 4 ∧
    ∃ pre, [some interleavedEvent, some durationReply] = pre ++ some durationReply :: [] ∧
      ∀ x : MpvMsg, some x ∈ pre → x.request_id ≠ some 4 :=
  read_reply_with_id_first_match [some interleavedEvent, some durationReply] 4
    durationReply [] (by decide)

/-! ### Theorems for C2 -/

/-- Claim C2, counterexample.  A read returning zero bytes makes the reader
thread send `Err "ffmpeg pipe returned 0 bytes"`, and the parent's
`Ok(Err(msg))` arm kills and reaps the child (main.rs:619-623) — contradicting
the claim that only a timeout kills and that a zero-byte read does not. -/
theorem C2_counterexample :
    pcmThreadMessage (.ok 0) (42, 1, 2) = .error "ffmpeg pipe returned 0 bytes" ∧
    (pcmRecvEffect (.received (pcmThreadMessage (.ok 0) (42, 1, 2)))).killed = true := by
  constructor
  · rfl
  · rfl

/-- Claim C2, amended: a zero-byte read reports an error for the analysis
sub-step and the child IS killed and reaped, exactly as on timeout or on a
read error; only a successful non-empty read leaves the child alone and
publishes the measured triple. -/
theorem pcm_zero_read_kills (stats stats2 : Nat × ℚ × ℚ) (e : String) (n : Nat)
    (hn : 0 < n) :
    pcmRecvEffect (.received (pcmThreadMessage (.ok 0) stats)) =
      { killed := true, waited := true, published := none } ∧
    pcmRecvEffect .timedOut = { killed := true, waited := true, published := none } ∧
    pcmRecvEffect (.received (pcmThreadMessage (.readErr e) stats)) =
      { killed := true, waited := true, published := none } ∧
    pcmRecvEffect (.received (pcmThreadMessage (.ok n) stats2)) =
      { killed := false, waited := false, published := some stats2 } := by
  refine ⟨rfl, rfl, rfl, ?_⟩
  simp [pcmThreadMessage, pcmRecvEffect, hn]

/-- Witness for the amended C2 theorem: a 4096-byte read succeeds without a
kill while the zero-byte read and the timeout both kill. -/
theorem pcm_zero_read_kills_witness :
    pcmRecvEffect (.received (pcmThreadMessage (.ok 0) (0, 0, 0))) =
      { killed := true, waited := true, published := none } ∧
    pcmRecvEffect .timedOut = { killed := true, waited := true, published := none } ∧
    pcmRecvEffect (.received (pcmThreadMessage (.readErr "broken pipe") (0, 0, 0))) =
      { killed := true, waited := true, published := none } ∧
    pcmRecvEffect (.received (pcmThreadMessage (.ok 4096) (7, 1, 2))) =
      { killed := false, waited := false, published := some (7, 1, 2) } :=
  pcm_zero_read_kills (0, 0, 0) (7, 1, 2) "broken pipe" 4096 (by norm_num)

/-! ### Theorems for C5 -/

/-- Claim C5, counterexample.  Each publish site sends one wake signal
(`proxy.send_event`), so publishing snapshot A then snapshot B before any
consume produces two wake signals, not the claimed exactly one. -/
theorem C5_counterexample :
    (publishSnapshot (publishSnapshot (⟨none, 0⟩ : MailboxState Nat) 1) 2).wakes = 2 ∧
    (2 : Nat) ≠ 1 := by
  constructor
  · rfl
  · decide

/-- Claim C5, amended: publishing A then B before any consume produces one
wake signal per publish (two in total); the first consume delivers only B —
A is never delivered — and the second consume finds the slot empty and
delivers nothing. -/
theorem mailbox_coalesces {α : Type} (mb : MailboxState α) (A B : α) (hne : A ≠ B) :
    (publishSnapshot (publishSnapshot mb A) B).wakes = mb.wakes + 2 ∧
    (consumeSnapshot (publishSnapshot (publishSnapshot mb A) B)).2 = some B ∧
    (consumeSnapshot (publishSnapshot (publishSnapshot mb A) B)).2 ≠ some A ∧
    (consumeSnapshot (consumeSnapshot (publishSnapshot (publishSnapshot mb A) B)).1).2
      = none := by
  refine ⟨rfl, rfl, ?_, rfl⟩
  simp [consumeSnapshot, publishSnapshot]
  exact fun hcontra => hne hcontra.symm

/-- Witness for the amended C5 theorem with the empty mailbox and the two
distinct payloads 1 and 2. -/
theorem mailbox_coalesces_witness :
    (publishSnapshot (publishSnapshot (⟨none, 0⟩ : MailboxState Nat) 1) 2).wakes = 0 + 2 ∧
    (consumeSnapshot (publishSnapshot (publishSnapshot (⟨none, 0⟩ : MailboxState Nat) 1) 2)).2
      = some 2 ∧
    (consumeSnapshot (publishSnapshot (publishSnapshot (⟨none, 0⟩ : MailboxState Nat) 1) 2)).2
      ≠ some 1 ∧
    (consumeSnapshot
      (consumeSnapshot (publishSnapshot (publishSnapshot (⟨none, 0⟩ : MailboxState Nat) 1) 2)).1).2
      = none :=
  mailbox_coalesces (⟨none, 0⟩ : MailboxState Nat) 1 2 (by decide)

/-! ### Theorems for C6 -/

/-- Claim C6, confirmed: for every subtitle line with `end > start` the cut
window computed on trigger is `start = max(0, start − 0.10)` and
`end = min(duration, end + 0.10)` when `duration > 0`, else `end + 0.10`. -/
theorem computeCutWindow_spec (s e dur : ℚ) (_hse : s < e) :
    computeCutWindow s e dur =
      (max 0 (s - 1/10), if 0 < dur then min dur (e + 1/10) else e + 1/10) := by
  unfold computeCutWindow
  refine Prod.ext ?_ ?_
  · by_cases hs : (1:ℚ)/10 < s
    · simp only [if_pos hs]
      rw [max_eq_right (by linarith)]
    · simp only [if_neg hs]
      push_neg at hs
      rw [max_eq_left (by linarith)]
  · by_cases hdur : 0 < dur
    · by_cases hclip : dur < e + 1/10
      · simp only [if_pos (And.intro hdur hclip), if_pos hdur]
        rw [min_eq_left (le_of_lt hclip)]
      · push_neg at hclip
        have : ¬ (0 < dur ∧ dur < e + 1/10) := by
          intro hcon; exact absurd hcon.2 (not_lt.mpr hclip)
        simp only [if_neg this, if_pos hdur]
        rw [min_eq_right hclip]
    · have : ¬ (0 < dur ∧ dur < e + 1/10) := fun hcon => hdur hcon.1
      simp only [if_neg this, if_neg hdur]

/-- Witness for C6 at the spec's end-to-end example: line (10.00, 12.00) with
duration 100.0 yields the window (9.90, 12.10). -/
theorem computeCutWindow_spec_witness :
    computeCutWindow 10 12 100 =
      (max 0 (10 - 1/10), if (0:ℚ) < 100 then min 100 (12 + 1/10) else 12 + 1/10) :=
  computeCutWindow_spec 10 12 100 (by norm_num)

/-! ### Theorems for C4 -/

/-- Claim C4, counterexample.  In the cycle `c4Cycle` the analysis publish
delivers the measured `latency_ms = 42`, `rms = 1/2`, `peak = 3/4`; the mic
completion publish of the same cycle — built from the field snapshot captured
at spawn time, before the analysis ran — resets all three to the defaults
`0`, so a field carried by the earlier publish is retracted by the later
one. -/
theorem C4_counterexample :
    (analysisCompletionPayload c4Cycle 42 (1/2) (3/4)).latency_ms = 42 ∧
    (micCompletionPayload c4Cycle).latency_ms = 0 ∧
    (analysisCompletionPayload c4Cycle 42 (1/2) (3/4)).rms = 1/2 ∧
    (micCompletionPayload c4Cycle).rms = 0 ∧
    (analysisCompletionPayload c4Cycle 42 (1/2) (3/4)).peak = 3/4 ∧
    (micCompletionPayload c4Cycle).peak = 0 ∧
    (42 : Nat) ≠ 0 := by
  refine ⟨rfl, rfl, rfl, rfl, rfl, rfl, by decide⟩

/-- Claim C4, amended: within one trigger cycle the two publishes agree on the
text/window/duration/track/clip-path fields, and the mic completion publish
adds the two mic paths; but the mic publish always reports
`latency_ms = 0`, `rms = 0`, `peak = 0` (the values captured before the
analysis ran), and the analysis publish includes the mic paths only when a
device was explicitly selected. -/
theorem snapshot_publishes_per_cycle (c : CycleCtx) (lat : Nat) (rms peak : ℚ) :
    (micCompletionPayload c).text = c.text ∧
    (micCompletionPayload c).s = c.s ∧
    (micCompletionPayload c).e = c.e ∧
    (micCompletionPayload c).dur = c.dur ∧
    (micCompletionPayload c).ff_index = c.ff_index ∧
    (micCompletionPayload c).out_path = c.out_path ∧
    (micCompletionPayload c).latest_path = c.latest_path ∧
    (micCompletionPayload c).latest_mic_path = some c.latest_mic_path ∧
    (micCompletionPayload c).mic_out_path = some c.mic_out_path ∧
    (micCompletionPayload c).latency_ms = 0 ∧
    (micCompletionPayload c).rms = 0 ∧
    (micCompletionPayload c).peak = 0 ∧
    (analysisCompletionPayload c lat rms peak).text = c.text ∧
    (analysisCompletionPayload c lat rms peak).s = c.s ∧
    (analysisCompletionPayload c lat rms peak).e = c.e ∧
    (analysisCompletionPayload c lat rms peak).dur = c.dur ∧
    (analysisCompletionPayload c lat rms peak).ff_index = c.ff_index ∧
    (analysisCompletionPayload c lat rms peak).out_path = c.out_path ∧
    (analysisCompletionPayload c lat rms peak).latest_path = c.latest_path ∧
    (analysisCompletionPayload c lat rms peak).latest_mic_path
      = c.mic_device_sel.map (fun _ => c.latest_mic_path) ∧
    (analysisCompletionPayload c lat rms peak).mic_out_path
      = c.mic_device_sel.map (fun _ => c.mic_out_path) ∧
    (analysisCompletionPayload c lat rms peak).latency_ms = lat := by
  refine ⟨rfl, rfl, rfl, rfl, rfl, rfl, rfl, rfl, rfl, rfl, rfl, rfl,
    rfl, rfl, rfl, rfl, rfl, rfl, rfl, rfl, rfl, rfl⟩

/-! ### Theorems for C3 -/

theorem cleanupLe_trans (a b c : DirEntry) (hab : cleanupLe a b = true)
    (hbc : cleanupLe b c = true) : cleanupLe a c = true := by
  simp only [cleanupLe, decide_eq_true_eq] at *
  omega

theorem cleanupLe_total (a b : DirEntry) : (cleanupLe a b || cleanupLe b a) = true := by
  simp only [cleanupLe, Bool.or_eq_true, decide_eq_true_eq]
  omega

/-- Two entries of a directory whose paths are distinct are equal when their
paths agree. -/
theorem dirEntry_path_inj {dirEntries : List DirEntry}
    (hpaths : (dirEntries.map DirEntry.path).Nodup)
    {a b : DirEntry} (ha : a ∈ dirEntries) (hb : b ∈ dirEntries)
    (hp : a.path = b.path) : a = b :=
  List.inj_on_of_nodup_map hpaths ha hb hp

/-- Claim C3, confirmed: on a directory with pairwise-distinct paths and
pairwise-distinct modification times among the eligible files, with more than
`keep` eligible files, the retention cleanup (i) leaves exactly `keep`
eligible files, (ii) never removes an ineligible entry — in particular never
an excluded path or a `latest.wav`-named file (excluded files are also never
counted: exactly `keep` eligible files remain no matter how many ineligible
files exist), and (iii) every surviving eligible file is strictly newer than
every removed file. -/
theorem cleanup_old_clips_retention (dirEntries : List DirEntry) (keep : Nat)
    (exclude : List String)
    (hpaths : (dirEntries.map DirEntry.path).Nodup)
    (htimes : (dirEntries.filter (isCleanupEligible exclude)).Pairwise
      (fun a b => entryMTime a ≠ entryMTime b))
    (hM : keep < (dirEntries.filter (isCleanupEligible exclude)).length) :
    ((cleanup_old_clips dirEntries keep exclude).filter
        (isCleanupEligible exclude)).length = keep ∧
    (∀ ent ∈ dirEntries, ¬ (isCleanupEligible exclude ent = true) →
        ent ∈ cleanup_old_clips dirEntries keep exclude) ∧
    (∀ a ∈ cleanup_old_clips dirEntries keep exclude,
        isCleanupEligible exclude a = true →
        ∀ b ∈ dirEntries, b ∉ cleanup_old_clips dirEntries keep exclude →
        entryMTime b < entryMTime a) := by
  set L := dirEntries.filter (isCleanupEligible exclude) with hL
  set sorted := L.mergeSort cleanupLe with hsorteddef
  have hperm : sorted.Perm L := List.mergeSort_perm L cleanupLe
  have hlen : sorted.length = L.length := hperm.length_eq
  have hkeeplt : keep < sorted.length := by rw [hlen]; exact hM
  set dropped := sorted.drop keep with hdropdef
  set removed := dropped.map DirEntry.path with hremdef
  have hcleanup : cleanup_old_clips dirEntries keep exclude =
      dirEntries.filter (fun ent => !(removed.contains ent.path)) := by
    simp only [cleanup_old_clips]
    rw [← hL, ← hsorteddef, if_pos hkeeplt, ← hdropdef, ← hremdef]
  have hLsub : L.Sublist dirEntries := List.filter_sublist dirEntries
  have hLpaths : (L.map DirEntry.path).Nodup :=
    (hLsub.map DirEntry.path).nodup hpaths
  have hsortedpaths : (sorted.map DirEntry.path).Nodup :=
    ((hperm.map DirEntry.path).nodup_iff).mpr hLpaths
  have hsortednodup : sorted.Nodup := List.Nodup.of_map DirEntry.path hsortedpaths
  have hsortedPW : sorted.Pairwise (fun a b => cleanupLe a b = true) :=
    List.sorted_mergeSort cleanupLe_trans cleanupLe_total L
  have hsplit : List.take keep sorted ++ dropped = sorted := List.take_append_drop keep sorted
  have hdisj : (List.take keep sorted).Disjoint dropped := by
    have := hsortednodup
    rw [← hsplit] at this
    exact (List.nodup_append.mp this).2.2
  have hdropL : ∀ d ∈ dropped, d ∈ L := by
    intro d hd
    exact hperm.mem_iff.mp (List.mem_of_mem_drop hd)
  have hmemRemoved : ∀ ent ∈ dirEntries, ent.path ∈ removed → ent ∈ dropped := by
    intro ent hent hpmem
    obtain ⟨d, hd, hdp⟩ := List.mem_map.mp hpmem
    have hddir : d ∈ dirEntries := hLsub.subset (hdropL d hd)
    have : ent = d := dirEntry_path_inj hpaths hent hddir hdp.symm
    rw [this]; exact hd
  have hkeepNotRemoved : ∀ k ∈ List.take keep sorted, k.path ∉ removed := by
    intro k hk hcontra
    have hkdir : k ∈ dirEntries :=
      hLsub.subset (hperm.mem_iff.mp (List.mem_of_mem_take hk))
    exact hdisj hk (hmemRemoved k hkdir hcontra)
  refine ⟨?_, ?_, ?_⟩
  · -- exactly `keep` eligible files remain
    rw [hcleanup]
    have hcomm : (dirEntries.filter (fun ent => !(removed.contains ent.path))).filter
        (isCleanupEligible exclude) =
        L.filter (fun ent => !(removed.contains ent.path)) := by
      rw [hL, List.filter_filter, List.filter_filter]
      exact List.filter_congr (fun x _ => Bool.and_comm _ _)
    rw [hcomm]
    have hplen : (L.filter (fun ent => !(removed.contains ent.path))).length =
        (sorted.filter (fun ent => !(removed.contains ent.path))).length :=
      ((List.Perm.filter _ hperm).length_eq).symm
    rw [hplen, ← hsplit, List.filter_append]
    have hdropnil : dropped.filter (fun ent => !(removed.contains ent.path)) = [] := by
      rw [List.filter_eq_nil_iff]
      intro d hd
      have hmem : d.path ∈ removed := List.mem_map.mpr ⟨d, hd, rfl⟩
      simpa using hmem
    have hkeepall : (List.take keep sorted).filter
        (fun ent => !(removed.contains ent.path)) = List.take keep sorted := by
      rw [List.filter_eq_self]
      intro k hk
      have := hkeepNotRemoved k hk
      simpa [List.elem_iff] using this
    rw [hdropnil, hkeepall, List.append_nil, List.length_take]
    omega
  · -- ineligible entries are never removed
    intro ent hent hnel
    rw [hcleanup, List.mem_filter]
    refine ⟨hent, ?_⟩
    by_contra hcontra
    simp only [Bool.not_eq_true', Bool.not_eq_false] at hcontra
    have hpmem : ent.path ∈ removed := by simpa [List.elem_iff] using hcontra
    have : ent ∈ dropped := hmemRemoved ent hent hpmem
    exact hnel (List.mem_filter.mp (hdropL ent this)).2
  · -- surviving eligible files are strictly newer than removed ones
    intro a ha helig b hb hbnot
    rw [hcleanup, List.mem_filter] at ha
    obtain ⟨hadir, hanot⟩ := ha
    have haL : a ∈ L := List.mem_filter.mpr ⟨hadir, helig⟩
    have hasorted : a ∈ sorted := hperm.mem_iff.mpr haL
    have hanotdropped : a ∉ dropped := by
      intro hcontra
      have : a.path ∈ removed := List.mem_map.mpr ⟨a, hcontra, rfl⟩
      rw [Bool.not_eq_true'] at hanot
      simp [List.elem_iff, this] at hanot
    have hatake : a ∈ List.take keep sorted := by
      rw [← hsplit] at hasorted
      rcases List.mem_append.mp hasorted with h | h
      · exact h
      · exact absurd h hanotdropped
    have hbdropped : b ∈ dropped := by
      rw [hcleanup] at hbnot
      have : ¬ (!(removed.contains b.path)) = true := by
        intro hcontra
        exact hbnot (List.mem_filter.mpr ⟨hb, hcontra⟩)
      simp only [Bool.not_eq_true', Bool.not_eq_false] at this
      exact hmemRemoved b hb (by simpa [List.elem_iff] using this)
    have hle : cleanupLe a b = true := by
      have hPW := hsortedPW
      rw [← hsplit] at hPW
      exact (List.pairwise_append.mp hPW).2.2 a hatake b hbdropped
    have hne : entryMTime a ≠ entryMTime b := by
      have hsymm : Symmetric (fun x y : DirEntry => entryMTime x ≠ entryMTime y) :=
        fun x y hxy => fun hc => hxy hc.symm
      have haneb : a ≠ b := by
        intro hcontra
        rw [hcontra] at hatake
        exact hdisj hatake hbdropped
      exact htimes.forall hsymm haL (hdropL b hbdropped) haneb
    simp only [cleanupLe, decide_eq_true_eq] at hle
    omega

/-- Witness for C3: keeping 1 of the 2 eligible files in `c3Dir` (with
`latest.wav` and the excluded path present) leaves exactly 1 eligible file. -/
theorem cleanup_old_clips_retention_witness :
    ((cleanup_old_clips c3Dir 1 c3Exclude).filter (isCleanupEligible c3Exclude)).length = 1 :=
  (cleanup_old_clips_retention c3Dir 1 c3Exclude (by decide) (by decide) (by decide)).1

/-! ### Theorems for C7 -/

theorem decimate2_length (l : List ℚ) : (decimate2 l).length = l.length / 2 := by
  match l with
  | [] => simp [decimate2]
  | [a] => simp [decimate2]
  | a :: b :: rest =>
    have ih := decimate2_length rest
    simp only [decimate2, List.length_cons, ih]
    omega

/-- Claim C7, confirmed: decoding a mono 16-bit PCM WAV with source rate
48000 and requested target 24000 yields the 2-tap pairwise average of the
undecimated mono stream — `floor(frame_count / 2)` samples — at rate 24000,
while decoding the same bytes with no target yields the original
`frame_count = data_len / 2` samples at the source rate 48000. -/
theorem read_wav_mono48k_decimation (buf : List Nat) (data_off data_len : Nat)
    (hparse : parse_header_minimal buf =
      .ok ({ sample_rate := 48000, channels := 1, bits_per_sample := 16 },
        data_off, data_len))
    (hbounds : data_off + data_len ≤ buf.length) :
    ∃ mono : List ℚ,
      read_wav_mono_16bit buf none = .ok (mono, 48000) ∧
      mono.length = data_len / 2 ∧
      read_wav_mono_16bit buf (some 24000) = .ok (decimate2 mono, 24000) ∧
      (decimate2 mono).length = data_len / 2 / 2 := by
  have hnb : ¬ (buf.length < data_off + data_len) := by omega
  have hbyteslen : ((buf.drop data_off).take data_len).length = data_len := by
    simp only [List.length_take, List.length_drop]
    omega
  by_cases hzero : data_len / 2 = 0
  · refine ⟨[], ?_, by simp [hzero], ?_, by simp [decimate2, hzero]⟩
    · simp [read_wav_mono_16bit, hparse, decodeSamples, hnb, hbyteslen, hzero]
    · simp [read_wav_mono_16bit, hparse, decodeSamples, hnb, hbyteslen, hzero, decimate2]
  · refine ⟨(List.range (data_len / 2)).map
      (monoFrameAt ((buf.drop data_off).take data_len) 1), ?_, ?_, ?_, ?_⟩
    · simp [read_wav_mono_16bit, hparse, decodeSamples, hnb, hbyteslen, hzero]
    · simp
    · simp [read_wav_mono_16bit, hparse, decodeSamples, hnb, hbyteslen, hzero]
    · rw [decimate2_length]
      simp

/-- Witness for C7 at the concrete two-frame WAV `wav48kMono`
(`data_len = 4`, so 2 mono frames, 1 decimated sample). -/
theorem read_wav_mono48k_decimation_witness :
    ∃ mono : List ℚ,
      read_wav_mono_16bit wav48kMono none = .ok (mono, 48000) ∧
      mono.length = 4 / 2 ∧
      read_wav_mono_16bit wav48kMono (some 24000) = .ok (decimate2 mono, 24000) ∧
      (decimate2 mono).length = 4 / 2 / 2 :=
  read_wav_mono48k_decimation wav48kMono 44 4 (by rfl) (by decide)

/-! ### Theorems for C10 -/

/-- Claim C10, confirmed: (i) with a present-but-empty data chunk the decoder
succeeds with no samples and reports the requested target rate when one was
given (even though no resampling happened), else the source rate; (ii) with
non-empty data and a source/target pair other than 48000→24000 it reports the
source rate, ignoring the requested target. -/
theorem read_wav_rate_selection :
    (∀ (buf : List Nat) (target : Option Nat) (info : WavInfo) (doff dlen : Nat),
      parse_header_minimal buf = .ok (info, doff, dlen) →
      info.bits_per_sample = 16 → doff + dlen ≤ buf.length → dlen / 2 = 0 →
      read_wav_mono_16bit buf target = .ok ([], target.getD info.sample_rate)) ∧
    (∀ (buf : List Nat) (t : Nat) (info : WavInfo) (doff dlen : Nat),
      parse_header_minimal buf = .ok (info, doff, dlen) →
      info.bits_per_sample = 16 → doff + dlen ≤ buf.length → dlen / 2 ≠ 0 →
      ¬ (info.sample_rate = 48000 ∧ t = 24000) →
      ∃ mono : List ℚ, read_wav_mono_16bit buf (some t) = .ok (mono, info.sample_rate) ∧
        mono.length = dlen / 2 / max info.channels 1) := by
  constructor
  · intro buf target info doff dlen hparse hbits hbounds hzero
    have hnb : ¬ (buf.length < doff + dlen) := by omega
    have hbyteslen : ((buf.drop doff).take dlen).length = dlen := by
      simp only [List.length_take, List.length_drop]
      omega
    simp [read_wav_mono_16bit, hparse, decodeSamples, hbits, hnb, hbyteslen, hzero]
  · intro buf t info doff dlen hparse hbits hbounds hzero hpair
    have hnb : ¬ (buf.length < doff + dlen) := by omega
    have hbyteslen : ((buf.drop doff).take dlen).length = dlen := by
      simp only [List.length_take, List.length_drop]
      omega
    refine ⟨(List.range (dlen / 2 / max info.channels 1)).map
      (monoFrameAt ((buf.drop doff).take dlen) (max info.channels 1)), ?_, by simp⟩
    simp [read_wav_mono_16bit, hparse, decodeSamples, hbits, hnb, hbyteslen, hzero, hpair]

/-- Witness for C10: the empty-data 44.1 kHz WAV decoded with target 24000
reports rate 24000; the non-empty 48 kHz WAV decoded with target 22050
reports the source rate 48000. -/
theorem read_wav_rate_selection_witness :
    read_wav_mono_16bit wav44kEmptyData (some 24000) =
      .ok ([], (some 24000).getD (44100 : Nat)) ∧
    ∃ mono : List ℚ, read_wav_mono_16bit wav48kMono (some 22050) = .ok (mono, 48000) ∧
      mono.length = 4 / 2 / max 1 1 := by
  constructor
  · exact read_wav_rate_selection.1 wav44kEmptyData (some 24000)
      { sample_rate := 44100, channels := 1, bits_per_sample := 16 } 44 0
      (by rfl) (by rfl) (by decide) (by decide)
  · exact read_wav_rate_selection.2 wav48kMono 22050
      { sample_rate := 48000, channels := 1, bits_per_sample := 16 } 44 4
      (by rfl) (by rfl) (by decide) (by decide) (by decide)

/-! ### Theorems for C8 and C9 -/

/-- When a frame does not panic, the pushed flag is `true` exactly when the
pushed f0 value is positive (pitch.rs:96-114): `voiced` is set only together
with a positive `freq`, and an unvoiced frame pushes `0`. -/
theorem processFrame_snd (frame : List ℚ) (frame_size tau_min tau_max : Nat)
    (sr thresh : ℚ) (q : ℚ × Bool)
    (h : processFrame frame frame_size tau_min tau_max sr thresh = some q) :
    q.2 = decide (0 < q.1) := by
  unfold processFrame at h
  cases hfill : fillNsdf frame frame_size tau_min tau_max with
  | none => rw [hfill] at h; exact absurd h (by simp)
  | some nv =>
    rw [hfill] at h
    dsimp only at h
    split_ifs at h <;> obtain rfl := Option.some.inj h <;> simp_all

theorem frameFold_mem (samples : List ℚ) (frame_size hop tau_min tau_max : Nat)
    (sr thresh : ℚ) (fuel start : Nat) (out : List (ℚ × Bool))
    (hout : frameFold samples frame_size hop tau_min tau_max sr thresh fuel start
      = some out) (p : ℚ × Bool) (hp : p ∈ out) :
    p.2 = decide (0 < p.1) := by
  induction fuel generalizing start out with
  | zero =>
    simp only [frameFold] at hout
    obtain rfl := Option.some.inj hout
    simp at hp
  | succ n ih =>
    simp only [frameFold] at hout
    by_cases hc : start + frame_size ≤ samples.length
    · rw [if_pos hc] at hout
      cases hq : processFrame ((samples.drop start).take frame_size) frame_size
          tau_min tau_max sr thresh with
      | none => rw [hq] at hout; exact absurd hout (by simp)
      | some q =>
        rw [hq] at hout
        cases hrest : frameFold samples frame_size hop tau_min tau_max sr thresh n
            (start + hop) with
        | none => rw [hrest] at hout; exact absurd hout (by simp)
        | some rest =>
          rw [hrest] at hout
          dsimp only at hout
          obtain rfl := Option.some.inj hout
          rcases List.mem_cons.mp hp with hh | hh
          · rw [hh]; exact processFrame_snd _ _ _ _ _ _ q hq
          · exact ih _ _ hrest hh
    · rw [if_neg hc] at hout
      obtain rfl := Option.some.inj hout
      simp at hp

theorem f0Pairs_mem (samples : List ℚ) (cfg : F0Config)
    (results : List (ℚ × Bool)) (h : f0Pairs samples cfg = some results)
    (p : ℚ × Bool) (hp : p ∈ results) : p.2 = decide (0 < p.1) := by
  unfold f0Pairs at h
  dsimp only at h
  exact frameFold_mem _ _ _ _ _ _ _ _ _ _ h p hp

theorem zipMapFstSnd {α β : Type} (l : List (α × β)) :
    (l.map Prod.fst).zip (l.map Prod.snd) = l := by
  induction l with
  | nil => rfl
  | cons a t ih => simp [ih]

/-- Filtering the series for positive values selects exactly the voiced
pairs, given the flag/value invariant. -/
theorem filter_pos_eq_filter_flag (l : List (ℚ × Bool))
    (h : ∀ p ∈ l, p.2 = decide (0 < p.1)) :
    (l.map Prod.fst).filter (fun x => decide (0 < x)) =
      (l.filter (fun p => p.2)).map Prod.fst := by
  induction l with
  | nil => rfl
  | cons a t ih =>
    have ha := h a (by simp)
    have ht : ∀ p ∈ t, p.2 = decide (0 < p.1) :=
      fun p hp => h p (List.mem_cons_of_mem _ hp)
    by_cases hpos : 0 < a.1
    · simp [List.filter_cons, hpos, ha, ih ht]
    · simp [List.filter_cons, hpos, ha, ih ht]

theorem medianFromSeries_eq_medianOverVoiced (l : List (ℚ × Bool))
    (h : ∀ p ∈ l, p.2 = decide (0 < p.1)) :
    medianFromSeries (l.map Prod.fst) =
      medianOverVoiced (l.map Prod.fst) (l.map Prod.snd) := by
  unfold medianFromSeries medianOverVoiced
  dsimp only
  rw [zipMapFstSnd, filter_pos_eq_filter_flag l h]
  generalize ((l.filter (fun p => p.2)).map Prod.fst).mergeSort
    (fun a b => decide (a ≤ b)) = s
  split_ifs with h1 h2
  · rfl
  · rfl
  · congr 1
    ring

/-- Claim C8, confirmed on the estimator's non-panicking domain: whenever
`estimate_f0_mpm` returns a result (for lag bounds exceeding the frame size
the Rust code instead panics at pitch.rs:64, modelled here as `none`), its
`median_hz` is exactly the claim's rule applied to the result's own per-frame
series and voiced flags — the middle value (after sorting) of the voiced
frames' f0 values for an odd voiced count, the average of the two middle
values for an even count, and `none` when no frame is voiced. -/
theorem estimate_f0_median_rule (samples : List ℚ) (cfg : F0Config)
    (res : F0Result) (h : estimate_f0_mpm samples cfg = some res) :
    res.median_hz = medianOverVoiced res.f0_hz res.voiced_flags := by
  unfold estimate_f0_mpm at h
  by_cases hempty : samples = [] ∨ cfg.frame_size < 3
  · rw [if_pos hempty] at h
    obtain rfl := Option.some.inj h
    simp [medianOverVoiced]
  · rw [if_neg hempty] at h
    cases hps : f0Pairs samples cfg with
    | none => rw [hps] at h; exact absurd h (by simp)
    | some results =>
      rw [hps] at h
      dsimp only at h
      obtain rfl := Option.some.inj h
      exact medianFromSeries_eq_medianOverVoiced results
        (fun p hp => f0Pairs_mem samples cfg results hps p hp)

/-- Claim C9, confirmed on the estimator's non-panicking domain: whenever
`estimate_f0_mpm` returns a result, its `f0_hz` and `voiced_flags` vectors
are equally long and the i-th flag is `true` exactly when the i-th f0 value
is positive. -/
theorem estimate_f0_flags_iff_positive (samples : List ℚ) (cfg : F0Config)
    (res : F0Result) (h : estimate_f0_mpm samples cfg = some res) :
    res.f0_hz.length = res.voiced_flags.length ∧
    ∀ i : Nat, i < res.voiced_flags.length →
      (res.voiced_flags.getD i false = true ↔ 0 < res.f0_hz.getD i 0) := by
  unfold estimate_f0_mpm at h
  by_cases hempty : samples = [] ∨ cfg.frame_size < 3
  · rw [if_pos hempty] at h
    obtain rfl := Option.some.inj h
    simp
  · rw [if_neg hempty] at h
    cases hps : f0Pairs samples cfg with
    | none => rw [hps] at h; exact absurd h (by simp)
    | some results =>
      rw [hps] at h
      dsimp only at h
      obtain rfl := Option.some.inj h
      refine ⟨by simp, ?_⟩
      intro i hi
      simp only [List.length_map] at hi
      have hmem := f0Pairs_mem samples cfg results hps (results.get ⟨i, hi⟩)
        (List.get_mem _ _ hi)
      rw [List.getD_eq_getElem _ _ (by simpa using hi),
        List.getD_eq_getElem _ _ (by simpa using hi)]
      simp only [List.getElem_map]
      rw [List.get_eq_getElem] at hmem
      rw [hmem]
      simp

/-- Concrete evaluation shared by the C8 and C9 witnesses: `[1, 2, 3]` under
`tinyF0Config` (lag bounds 2..3 within frame size 3, so no panic) yields one
unvoiced frame. -/
theorem tinyPairs : f0Pairs [1, 2, 3] tinyF0Config = some [((0 : ℚ), false)] := by
  have ht : (Int.toNat 2) = 2 := rfl
  norm_num [f0Pairs, tinyF0Config, frameFold, processFrame, fillNsdf, bestPeakFold,
    max_def, min_def, ht]

theorem tinyConfigEval : estimate_f0_mpm [1, 2, 3] tinyF0Config =
    some { f0_hz := [0], voiced_flags := [false], median_hz := none,
           voiced_ratio := 0 } := by
  have hc : ¬([1, 2, 3] = ([] : List ℚ) ∨ tinyF0Config.frame_size < 3) := by decide
  unfold estimate_f0_mpm
  rw [if_neg hc, tinyPairs]
  dsimp only
  norm_num [medianFromSeries, voicedRatio, List.mergeSort]

/-- Witness for C8 at the concrete input `[1, 2, 3]` with `tinyF0Config`. -/
theorem estimate_f0_median_rule_witness :
    ({ f0_hz := [0], voiced_flags := [false], median_hz := none,
       voiced_ratio := 0 } : F0Result).median_hz =
      medianOverVoiced
        ({ f0_hz := [0], voiced_flags := [false], median_hz := none,
           voiced_ratio := 0 } : F0Result).f0_hz
        ({ f0_hz := [0], voiced_flags := [false], median_hz := none,
           voiced_ratio := 0 } : F0Result).voiced_flags :=
  estimate_f0_median_rule [1, 2, 3] tinyF0Config _ tinyConfigEval

/-- Witness for C9 at the same concrete input: one frame, and its flag
matches its f0 sign. -/
theorem estimate_f0_flags_iff_positive_witness :
    ({ f0_hz := [0], voiced_flags := [false], median_hz := none,
       voiced_ratio := 0 } : F0Result).f0_hz.length =
      ({ f0_hz := [0], voiced_flags := [false], median_hz := none,
         voiced_ratio := 0 } : F0Result).voiced_flags.length ∧
    (({ f0_hz := [0], voiced_flags := [false], median_hz := none,
        voiced_ratio := 0 } : F0Result).voiced_flags.getD 0 false = true ↔
      0 < ({ f0_hz := [0], voiced_flags := [false], median_hz := none,
             voiced_ratio := 0 } : F0Result).f0_hz.getD 0 0) :=
  ⟨(estimate_f0_flags_iff_positive [1, 2, 3] tinyF0Config _ tinyConfigEval).1,
    (estimate_f0_flags_iff_positive [1, 2, 3] tinyF0Config _ tinyConfigEval).2 0
      (by decide)⟩
